import Mathlib

/-!
Verification development for the track-meet result parser
(`parse_file.py` of danglorioso/track-api).

The Python source is shallowly embedded: strings are `String`
(viewed as `List Char`), Python's `re` regular expressions are given an
executable backtracking semantics (`RE` / `reRun`) faithful to the CPython
engine on the pattern features that the source uses (leftmost match,
greedy/lazy repetition, ordered alternation, capture groups, `^`, `$`,
`re.IGNORECASE`, `re.match` as anchored-prefix match, `re.search` as
leftmost-position match).  Character classes `\w`, `\d`, `\s` and the
`str` methods (`strip`, `split`, `lower`, `upper`, `isdigit`) are modelled
over ASCII, which covers every input these theorems evaluate.

The fuzzy-matching scorer (library `rapidfuzz`) and the two reference
vocabularies (`STANDARD_EVENTS`, `STANDARD_SCHOOLS`, in repository modules
that are not part of the sources here) are external to the core per the
spec; they are modelled as parameters: a scorer `String → String → Nat`
returning a 0-100 similarity and a vocabulary `List (String × List String)`
mapping each canonical name to its alternate spellings.
-/

/-! ## ASCII models of the Python character predicates -/

/-- Python whitespace (`str.strip`, `str.split`, regex `\s`), ASCII part:
space, tab, newline, carriage return, vertical tab, form feed. -/
def isPySpace (c : Char) : Bool :=
  c = ' ' || c = '\t' || c = '\n' || c = '\r' || c = '\x0b' || c = '\x0c'

/-- ASCII decimal digit (regex `\d`, `str.isdigit`). -/
def isPyDigit (c : Char) : Bool := '0' ≤ c && c ≤ '9'

/-- ASCII word character (regex `\w`): letter, digit or underscore. -/
def isPyWord (c : Char) : Bool :=
  ('a' ≤ c && c ≤ 'z') || ('A' ≤ c && c ≤ 'Z') || isPyDigit c || c = '_'

/-- ASCII lower-casing (model of `str.lower` on the inputs used here). -/
def pyLowerChar (c : Char) : Char :=
  if 'A' ≤ c && c ≤ 'Z' then Char.ofNat (c.toNat + 32) else c

/-- ASCII upper-casing (model of `str.upper`). -/
def pyUpperChar (c : Char) : Char :=
  if 'a' ≤ c && c ≤ 'z' then Char.ofNat (c.toNat - 32) else c

/-! ## Python `str` methods -/

/-- `str.strip()`: remove leading and trailing whitespace. -/
def pyStrip (s : String) : String :=
  String.mk (((s.data.dropWhile isPySpace).reverse.dropWhile isPySpace).reverse)

/-- `str.strip(chars)`: remove leading/trailing characters from `cs`. -/
def pyStripChars (cs : List Char) (s : String) : String :=
  String.mk (((s.data.dropWhile (cs.contains ·)).reverse.dropWhile
    (cs.contains ·)).reverse)

/-- `str.lower()`. -/
def pyLower (s : String) : String := String.mk (s.data.map pyLowerChar)

/-- `str.upper()`. -/
def pyUpper (s : String) : String := String.mk (s.data.map pyUpperChar)

/-- `str.isdigit()`: non-empty and all digits. -/
def pyIsDigit (s : String) : Bool := !s.data.isEmpty && s.data.all isPyDigit

/-- Numeric value of an all-digit string (model of Python `int(s)`). -/
def pyToNat (s : String) : Nat :=
  s.data.foldl (fun n c => 10 * n + (c.toNat - '0'.toNat)) 0

/-- Helper for `str.split()`: accumulate the current (reversed) token. -/
def pySplitWsAux : List Char → List Char → List String
  | cur, [] => if cur.isEmpty then [] else [String.mk cur.reverse]
  | cur, c :: rest =>
    if isPySpace c then
      if cur.isEmpty then pySplitWsAux [] rest
      else String.mk cur.reverse :: pySplitWsAux [] rest
    else pySplitWsAux (c :: cur) rest

/-- `str.split()` (no argument): split on whitespace runs, dropping empties. -/
def pySplitWs (s : String) : List String := pySplitWsAux [] s.data

/-- Helper for `str.split(',', 1)`: scan for the first comma. -/
def pySplitComma1Aux : List Char → List Char → List String
  | acc, [] => [String.mk acc.reverse]
  | acc, c :: rest =>
    if c = ',' then [String.mk acc.reverse, String.mk rest]
    else pySplitComma1Aux (c :: acc) rest

/-- `str.split(',', 1)`: split at the first comma only. -/
def pySplitComma1 (s : String) : List String := pySplitComma1Aux [] s.data

/-- `" ".join l` for a list of strings. -/
def joinSpace : List String → String
  | [] => ""
  | [x] => x
  | x :: rest => x ++ " " ++ joinSpace rest

/-- `needle` occurs as a contiguous sublist of `hay` (Python `in` on str). -/
def listIsSub (needle hay : List Char) : Bool :=
  match hay with
  | [] => needle.isEmpty
  | _ :: rest => needle.isPrefixOf hay || listIsSub needle rest

/-- Python `sub in s` for strings. -/
def strContains (s sub : String) : Bool := listIsSub sub.data s.data

/-- Python `s.startswith(p)`. -/
def strStartsWith (s p : String) : Bool := p.data.isPrefixOf s.data

/-! ## A backtracking regular-expression engine

Executable model of the CPython `re` engine restricted to the features the
source patterns use.  `reRun` is a continuation-list interpreter: it is
given a stack of pending regex items and explores alternatives in exactly
the order the CPython backtracking engine does (ordered alternation,
greedy repetition tries the longer match first, lazy repetition the
shorter), so the first success — including its capture spans — coincides
with CPython's match.  A fuel parameter makes the search obviously
terminating; the fuel used below is far beyond the number of
backtracking steps possible on the inputs evaluated. -/

/-- One atom of a character class. -/
inductive CAtom where
  | ch (c : Char)
  | digit
  | word
  | space
deriving DecidableEq, Repr

/-- `a` matches a single character `c` (no case folding). -/
def catomMatch (a : CAtom) (c : Char) : Bool :=
  match a with
  | .ch d => c = d
  | .digit => isPyDigit c
  | .word => isPyWord c
  | .space => isPySpace c

/-- Regular expressions (plus the internal `closeG` continuation marker).
`ci` flags mirror `re.IGNORECASE`.  `rep lo hi lzy r` is `r{lo,hi}` with
`hi = none` for unbounded, lazy when `lzy`. -/
inductive RE where
  | eps
  | lit (c : Char) (ci : Bool)
  | cls (neg : Bool) (ci : Bool) (atoms : List CAtom)
  | seq (a b : RE)
  | alt (a b : RE)
  | rep (lo : Nat) (hi : Option Nat) (lzy : Bool) (r : RE)
  | grp (i : Nat) (r : RE)
  | bos
  | eos
  | closeG (i : Nat) (start : Nat)
deriving Repr

/-- Class membership test, honouring `IGNORECASE` by also testing the
case-swapped character (CPython folds both ways for ASCII). -/
def clsMatch (neg ci : Bool) (atoms : List CAtom) (c : Char) : Bool :=
  let hit := atoms.any (fun a => catomMatch a c) ||
    (ci && atoms.any (fun a => catomMatch a (pyLowerChar c) ||
      catomMatch a (pyUpperChar c)))
  if neg then !hit else hit

/-- Single-character literal test with optional case folding. -/
def litMatch (d : Char) (ci : Bool) (c : Char) : Bool :=
  c = d || (ci && pyLowerChar c = pyLowerChar d)

/-- The backtracking interpreter.  `k` is the stack of pending items,
`pos` the current position in `s`, `caps` the capture spans recorded on
the current path (`(group, start, stop)`, most recent first).  Returns
the end position and captures of the first (CPython-order) full match of
the stack, or `none`. -/
def reRun (s : List Char) : Nat → List RE → Nat →
    List (Nat × Nat × Nat) → Option (Nat × List (Nat × Nat × Nat))
  | 0, _, _, _ => none
  | _ + 1, [], pos, caps => some (pos, caps)
  | fuel + 1, re :: k, pos, caps =>
    match re with
    | .eps => reRun s fuel k pos caps
    | .lit d ci =>
      match s.drop pos with
      | c :: _ => if litMatch d ci c then reRun s fuel k (pos + 1) caps else none
      | [] => none
    | .cls neg ci atoms =>
      match s.drop pos with
      | c :: _ =>
        if clsMatch neg ci atoms c then reRun s fuel k (pos + 1) caps else none
      | [] => none
    | .seq a b => reRun s fuel (a :: b :: k) pos caps
    | .alt a b =>
      match reRun s fuel (a :: k) pos caps with
      | some r => some r
      | none => reRun s fuel (b :: k) pos caps
    | .rep lo hi lzy r =>
      if lo > 0 then
        reRun s fuel (r :: .rep (lo - 1) (hi.map (· - 1)) lzy r :: k) pos caps
      else
        match hi with
        | some 0 => reRun s fuel k pos caps
        | _ =>
          if lzy then
            match reRun s fuel k pos caps with
            | some res => some res
            | none =>
              reRun s fuel (r :: .rep 0 (hi.map (· - 1)) lzy r :: k) pos caps
          else
            match reRun s fuel (r :: .rep 0 (hi.map (· - 1)) lzy r :: k) pos
                caps with
            | some res => some res
            | none => reRun s fuel k pos caps
    | .grp i r => reRun s fuel (r :: .closeG i pos :: k) pos caps
    | .closeG i start => reRun s fuel k pos ((i, start, pos) :: caps)
    | .bos => if pos = 0 then reRun s fuel k pos caps else none
    | .eos =>
      if pos = s.length || (pos + 1 = s.length && s.getD pos ' ' = '\n') then
        reRun s fuel k pos caps
      else none

/-- Step budget for the backtracking search; generous for every string
these theorems evaluate on. -/
def reFuel : Nat := 2000000

/-- The text captured by group `i` on the successful path: CPython keeps
the most recent span; an unentered group yields `""` (the source treats
`None` and `""` alike — both are falsy and every use is guarded). -/
def capStr (s : List Char) (caps : List (Nat × Nat × Nat)) (i : Nat) : String :=
  match caps.find? (fun c => c.1 = i) with
  | some (_, st, en) => String.mk ((s.drop st).take (en - st))
  | none => ""

/-- `re.match(pat, s)`: anchored at position 0, prefix match. -/
def reMatch (pat : RE) (s : String) : Option (Nat × List (Nat × Nat × Nat)) :=
  reRun s.data reFuel [pat] 0 []

/-- `re.match` as a boolean (used where the source only tests truthiness). -/
def reTest (pat : RE) (s : String) : Bool := (reMatch pat s).isSome

/-- `match.groups()` for a pattern with `n` groups, as a length-`n` list
(group `i` at index `i - 1`, `""` for an unmatched group). -/
def reMatchGroups (pat : RE) (n : Nat) (s : String) : Option (List String) :=
  (reMatch pat s).map fun r => (List.range n).map fun i => capStr s.data r.2 (i + 1)

/-- Try a match at positions `p, p+1, ...` (`cnt` positions remain). -/
def reSearchAux (pat : RE) (s : List Char) :
    Nat → Nat → Option (Nat × List (Nat × Nat × Nat))
  | 0, _ => none
  | cnt + 1, p =>
    match reRun s reFuel [pat] p [] with
    | some r => some r
    | none => reSearchAux pat s cnt (p + 1)

/-- `re.search(pat, s)`: first matching start position wins. -/
def reSearch (pat : RE) (s : String) : Option (Nat × List (Nat × Nat × Nat)) :=
  reSearchAux pat s.data (s.data.length + 1) 0

/-- `match.groups()` of a `re.search`, for a pattern with `n` groups. -/
def reSearchGroups (pat : RE) (n : Nat) (s : String) : Option (List String) :=
  (reSearch pat s).map fun r => (List.range n).map fun i => capStr s.data r.2 (i + 1)

/-! Constructor shorthands used to transcribe the source patterns. -/

/-- Concatenation of a list of regexes. -/
def rCat : List RE → RE
  | [] => .eps
  | [r] => r
  | r :: rest => .seq r (rCat rest)

/-- Ordered alternation of a list of regexes (first alternative first). -/
def rAlt : List RE → RE
  | [] => .eps
  | [r] => r
  | r :: rest => .alt r (rAlt rest)

/-- A case-sensitive literal string. -/
def rStr (s : String) : RE := rCat (s.data.map (fun c => .lit c false))

/-- A case-insensitive literal string (`re.IGNORECASE`). -/
def rStrCI (s : String) : RE := rCat (s.data.map (fun c => .lit c true))

/-- `r?` (greedy). -/
def rOpt (r : RE) : RE := .rep 0 (some 1) false r

/-- `r*` (greedy). -/
def rStar (r : RE) : RE := .rep 0 none false r

/-- `r+` (greedy). -/
def rPlus (r : RE) : RE := .rep 1 none false r

/-- `r+?` (lazy). -/
def rPlusL (r : RE) : RE := .rep 1 none true r

/-- `r{lo,hi}` (greedy). -/
def rRep (lo hi : Nat) (r : RE) : RE := .rep lo (some hi) false r

/-- `\d`. -/
def rD : RE := .cls false false [.digit]

/-- `\s`. -/
def rS : RE := .cls false false [.space]

/-- `.` (any character except newline). -/
def rDot : RE := .cls true false [.ch '\n']

/-! ## The source regex patterns

Each definition transcribes one regex literal from `parse_file.py`.
The fallback and event patterns are applied with `re.IGNORECASE`
(case-insensitive literals/classes, `ci = true`); the per-column
validation patterns are applied without flags. -/

/-- Fallback `(\d+|--?)` (place). -/
def fbPlace : RE := rAlt [rPlus rD, rCat [.lit '-' true, rOpt (.lit '-' true)]]

/-- Fallback name class `[\w\-\'\.\s,]`. -/
def fbNameCls : RE :=
  .cls false true [.word, .ch '-', .ch '\'', .ch '.', .space, .ch ',']

/-- Fallback school class `[\w\s\-\'\.\/\(\)]`. -/
def fbSchoolCls : RE :=
  .cls false true [.word, .space, .ch '-', .ch '\'', .ch '.', .ch '/',
    .ch '(', .ch ')']

/-- `\d{1,2}:\d{2}\.\d{2}` (a time like `1:23.45`), `ci` as flagged. -/
def reTimeForm (ci : Bool) : RE :=
  rCat [rRep 1 2 rD, .lit ':' ci, rRep 2 2 rD, .lit '.' ci, rRep 2 2 rD]

/-- `\d{1,2}\.\d{2}` (a seconds mark like `12.34`). -/
def reSecForm (ci : Bool) : RE :=
  rCat [rRep 1 2 rD, .lit '.' ci, rRep 2 2 rD]

/-- `\d+\'\d{2}\.\d{2}"` (a distance like `21'05.25"`). -/
def reFeetForm (ci : Bool) : RE :=
  rCat [rPlus rD, .lit '\'' ci, rRep 2 2 rD, .lit '.' ci, rRep 2 2 rD,
    .lit '"' ci]

/-- `\d+\-\d{2}\.\d{2}` (a distance like `21-05.25`). -/
def reDashForm (ci : Bool) : RE :=
  rCat [rPlus rD, .lit '-' ci, rRep 2 2 rD, .lit '.' ci, rRep 2 2 rD]

/-- Fallback mark core `(?:time|sec|feet|dash)`. -/
def fbMarkCore : RE :=
  rAlt [reTimeForm true, reSecForm true, reFeetForm true, reDashForm true]

/-- `[q*#]?` mark-flag suffix (case-insensitive in the fallback patterns). -/
def fbFlag : RE := rOpt (.cls false true [.ch 'q', .ch '*', .ch '#'])

/-- `([+-]?\d+\.\d+)` body — the wind capture of fallback pattern 1. -/
def fbWind : RE :=
  rCat [rOpt (.cls false true [.ch '+', .ch '-']), rPlus rD, .lit '.' true,
    rPlus rD]

/-- Fallback pattern 1 (8 groups):
`^\s*(\d+|--?)\s+([\w\-\'\.\s,]+?)\s+(\d+)?\s+([\w\s\-\'\.\/\(\)]+?)\s+`
`((?:...)[q*#]?)\s*(\d+)?\s*([+-]?\d+\.\d+)?\s*(\d+)?\s*$`. -/
def fbPat1 : RE := rCat [
  .bos, rStar rS,
  .grp 1 fbPlace, rPlus rS,
  .grp 2 (rPlusL fbNameCls), rPlus rS,
  rOpt (.grp 3 (rPlus rD)), rPlus rS,
  .grp 4 (rPlusL fbSchoolCls), rPlus rS,
  .grp 5 (rCat [fbMarkCore, fbFlag]), rStar rS,
  rOpt (.grp 6 (rPlus rD)), rStar rS,
  rOpt (.grp 7 fbWind), rStar rS,
  rOpt (.grp 8 (rPlus rD)), rStar rS, .eos]

/-- Fallback pattern 2 (5 groups):
`^\s*(\d+|--?)\s+([\w\-\'\.\s,]+?)\s+([\w\s\-\'\.\/\(\)]+?)\s+`
`((?:...)[q*#]?)\s*(.*)$`. -/
def fbPat2 : RE := rCat [
  .bos, rStar rS,
  .grp 1 fbPlace, rPlus rS,
  .grp 2 (rPlusL fbNameCls), rPlus rS,
  .grp 3 (rPlusL fbSchoolCls), rPlus rS,
  .grp 4 (rCat [fbMarkCore, fbFlag]), rStar rS,
  .grp 5 (rStar rDot), .eos]

/-- Fallback pattern 3 (5 groups):
`^\s*(\d+)\s+([\w\s\-\'\.\/\(\)]+?)\s+((?:\d{1,2}:\d{2}\.\d{2}|\d{1,2}\.\d{2})[q*#]?)\s*(\d+)?\s*(\d+)?\s*$`. -/
def fbPat3 : RE := rCat [
  .bos, rStar rS,
  .grp 1 (rPlus rD), rPlus rS,
  .grp 2 (rPlusL fbSchoolCls), rPlus rS,
  .grp 3 (rCat [rAlt [reTimeForm true, reSecForm true], fbFlag]), rStar rS,
  rOpt (.grp 4 (rPlus rD)), rStar rS,
  rOpt (.grp 5 (rPlus rD)), rStar rS, .eos]

/-- Column `place` pattern `^(\d+|--?|DQ|DNS|DNF|NT)$`. -/
def colPlacePat : RE := rCat [.bos,
  .grp 1 (rAlt [rPlus rD, rCat [.lit '-' false, rOpt (.lit '-' false)],
    rStr "DQ", rStr "DNS", rStr "DNF", rStr "NT"]), .eos]

/-- Column name token class `[\w\-\'\.]`. -/
def colNameTok : RE := .cls false false [.word, .ch '-', .ch '\'', .ch '.']

/-- Column `name` pattern
`^([\w\-\'\.]+(?:\s+[\w\-\'\.]+)*|[\w\-\'\.]+,\s*[\w\-\'\.]+)$`. -/
def colNamePat : RE := rCat [.bos,
  .grp 1 (rAlt [
    rCat [rPlus colNameTok, rStar (rCat [rPlus rS, rPlus colNameTok])],
    rCat [rPlus colNameTok, .lit ',' false, rStar rS, rPlus colNameTok]]),
  .eos]

/-- Column `grade` pattern `^(\d{1,2})$`. -/
def colGradePat : RE := rCat [.bos, .grp 1 (rRep 1 2 rD), .eos]

/-- Column `school` pattern `^[\w\s\-\'\.\/\(\)&]+$`. -/
def colSchoolPat : RE := rCat [.bos,
  rPlus (.cls false false [.word, .space, .ch '-', .ch '\'', .ch '.',
    .ch '/', .ch '(', .ch ')', .ch '&']), .eos]

/-- Column `mark` pattern
`^(\d{1,2}:\d{2}\.\d{2}|\d{1,2}\.\d{2}|\d+\'\d{2}\.\d{2}"|\d+\-\d{2}\.\d{2}|NT|DQ|DNS|DNF)[q*#]?$`. -/
def colMarkPat : RE := rCat [.bos,
  .grp 1 (rAlt [reTimeForm false, reSecForm false, reFeetForm false,
    reDashForm false, rStr "NT", rStr "DQ", rStr "DNS", rStr "DNF"]),
  rOpt (.cls false false [.ch 'q', .ch '*', .ch '#']), .eos]

/-- Column `heat`/`points`/`lane` pattern `^(\d+)$`. -/
def colIntPat : RE := rCat [.bos, .grp 1 (rPlus rD), .eos]

/-- `^[+-]?\d+\.\d+$` — the column `wind` pattern; the same literal also
appears in the fallback remainder-token scan. -/
def windRegex : RE := rCat [.bos,
  rOpt (.cls false false [.ch '+', .ch '-']), rPlus rD, .lit '.' false,
  rPlus rD, .eos]

/-- `(Boys?|Girls?)` with `re.IGNORECASE`. -/
def evBoysGirls : RE :=
  rAlt [rCat [rStrCI "Boy", rOpt (.lit 's' true)],
    rCat [rStrCI "Girl", rOpt (.lit 's' true)]]

/-- Event pattern 1: `Event\s+\d+\s+(Boys|Girls)\s+(.+)` (IGNORECASE). -/
def evPat1 : RE := rCat [rStrCI "Event", rPlus rS, rPlus rD, rPlus rS,
  .grp 1 (rAlt [rStrCI "Boys", rStrCI "Girls"]), rPlus rS,
  .grp 2 (rPlus rDot)]

/-- Event pattern 2:
`(Boys?|Girls?)\s+(.+?)(?:\s+Division|\s+Finals|\s+Preliminaries|\s+Semi-Finals|$)`
(IGNORECASE). -/
def evPat2 : RE := rCat [.grp 1 evBoysGirls, rPlus rS, .grp 2 (rPlusL rDot),
  rAlt [rCat [rPlus rS, rStrCI "Division"], rCat [rPlus rS, rStrCI "Finals"],
    rCat [rPlus rS, rStrCI "Preliminaries"],
    rCat [rPlus rS, rStrCI "Semi-Finals"], .eos]]

/-- Event pattern 3: `^\s*(.+?)\s+(Boys?|Girls?)` (IGNORECASE). -/
def evPat3 : RE := rCat [.bos, rStar rS, .grp 1 (rPlusL rDot), rPlus rS,
  .grp 2 evBoysGirls]

/-! ## Parsed results and the two result-line parsing strategies -/

/-- The per-line extraction record (`result` dict of the source).  The
`lane` field exists because a column map may carry a `lane` column, whose
value the source stores under a new dict key; it is never read. -/
structure ParsedResult where
  place : String := ""
  name : String := ""
  grade : String := ""
  school : String := ""
  mark : String := ""
  heat : String := ""
  wind : String := ""
  points : String := ""
  lane : String := ""
  review : Bool := false
deriving DecidableEq, Repr

/-- `column_patterns.get(col)` of `parse_result_line_with_columns`
(`none` for a column with no validation pattern — the source would then
raise on `re.match(None, ...)` and fall into the `except` handler). -/
def columnPatternOf (col : String) : Option RE :=
  if col = "place" then some colPlacePat
  else if col = "name" then some colNamePat
  else if col = "grade" then some colGradePat
  else if col = "school" then some colSchoolPat
  else if col = "mark" then some colMarkPat
  else if col = "heat" then some colIntPat
  else if col = "wind" then some windRegex
  else if col = "points" then some colIntPat
  else if col = "lane" then some colIntPat
  else none

/-- `result[col] = v` for the column names the source can produce. -/
def setField (r : ParsedResult) (col v : String) : ParsedResult :=
  if col = "place" then { r with place := v }
  else if col = "name" then { r with name := v }
  else if col = "grade" then { r with grade := v }
  else if col = "school" then { r with school := v }
  else if col = "mark" then { r with mark := v }
  else if col = "heat" then { r with heat := v }
  else if col = "wind" then { r with wind := v }
  else if col = "points" then { r with points := v }
  else if col = "lane" then { r with lane := v }
  else r

/-- Helper for `re.split(r'\s{2,}|\t+', line)`: a whitespace run of length
at least two, or a lone tab, separates segments; a lone non-tab whitespace
character stays inside its segment.  The fuel argument (≥ list length at
every call, so the zero case is unreachable) makes termination obvious. -/
def segSplitAux : Nat → List Char → List Char → List String
  | 0, cur, _ => [String.mk cur.reverse]
  | _ + 1, cur, [] => [String.mk cur.reverse]
  | fuel + 1, cur, c :: rest =>
    if isPySpace c then
      if (rest.takeWhile isPySpace).length + 1 ≥ 2 || c = '\t' then
        String.mk cur.reverse :: segSplitAux fuel [] (rest.dropWhile isPySpace)
      else segSplitAux fuel (c :: cur) rest
    else segSplitAux fuel (c :: cur) rest

/-- `re.split(r'\s{2,}|\t+', line)`. -/
def segSplit (line : String) : List String :=
  segSplitAux line.data.length [] line.data

/-- The recovery search of the column-guided strategy: try splitting the
mismatched segment's tokens at every prefix length `j = 1, 2, ...`
(`for j in range(1, len(sub_segments))`), returning the first prefix that
matches the column pattern, together with the re-injected remainder. -/
def recoverSplitAux (pat : RE) (subs : List String) :
    Nat → Nat → Option (String × String)
  | 0, _ => none
  | cnt + 1, j =>
    let candidate := joinSpace (subs.take j)
    if reTest pat candidate then some (candidate, joinSpace (subs.drop j))
    else recoverSplitAux pat subs cnt (j + 1)

/-- First successful recovery split, if any. -/
def recoverSplit (pat : RE) (subs : List String) : Option (String × String) :=
  recoverSplitAux pat subs (subs.length - 1) 1

/-- The lock-step walk of `parse_result_line_with_columns`: expected
fields against segments.  Returns the partial result, the expected fields
not yet consumed (`expected_fields[i:]`), the remaining segments
(`segments[current_index:]`), and whether a `None` pattern raised (the
`except` path, which skips the leftover pass and final validation). -/
def colWalk : List String → List String → Nat → ParsedResult →
    ParsedResult × List String × List String × Bool
  | [], segs, ci, res => (res, [], segs.drop ci, false)
  | col :: fields, segs, ci, res =>
    if ci < segs.length then
      match columnPatternOf col with
      | none => ({ res with review := true }, col :: fields, segs.drop ci, true)
      | some pat =>
        let seg := segs.getD ci ""
        if reTest pat seg then colWalk fields segs (ci + 1) (setField res col seg)
        else
          match recoverSplit pat (pySplitWs seg) with
          | some (cand, rem) =>
            colWalk fields (segs.set ci rem) ci (setField res col cand)
          | none => ({ res with review := true }, col :: fields, segs.drop ci, false)
    else (res, col :: fields, segs.drop ci, false)

/-- The leftover pass: remaining expected fields against leftover
segments; a mismatch sets review but keeps going.  The boolean again
flags the `None`-pattern exception path. -/
def colLeftover : List String → List String → ParsedResult →
    ParsedResult × Bool
  | [], _, res => (res, false)
  | _, [], res => (res, false)
  | col :: cols, seg :: rest, res =>
    match columnPatternOf col with
    | none => ({ res with review := true }, true)
    | some pat =>
      if reTest pat seg then colLeftover cols rest (setField res col seg)
      else colLeftover cols rest { res with review := true }

/-- Stable insertion into a position-sorted association list. -/
def insertByPos (p : String × Nat) :
    List (String × Nat) → List (String × Nat)
  | [] => [p]
  | q :: rest => if p.2 < q.2 then p :: q :: rest else q :: insertByPos p rest

/-- `sorted(column_map.items(), key=lambda x: x[1])`. -/
def sortByPos (l : List (String × Nat)) : List (String × Nat) :=
  l.foldl (fun acc p => insertByPos p acc) []

/-- `parse_result_line_with_columns(line, column_map)`. -/
def parse_result_line_with_columns (line0 : String)
    (column_map : List (String × Nat)) : ParsedResult :=
  let line := pyStrip line0
  if line = "" || strStartsWith line "=" || strStartsWith line "-" then
    { review := true }
  else if (pySplitWs line).length < 3 then { review := true }
  else
    let segments := ((segSplit line).map pyStrip).filter (· ≠ "")
    let expected := (sortByPos column_map).map Prod.fst
    let w := colWalk expected segments 0 {}
    if w.2.2.2 then w.1
    else
      let lv := colLeftover w.2.1 w.2.2.1 w.1
      if lv.2 then lv.1
      else if lv.1.place = "" || lv.1.mark = "" then { lv.1 with review := true }
      else lv.1

/-! ## The fixed-pattern fallback strategy -/

/-- `groups[2] and groups[2].strip().isdigit() and int(groups[2].strip()) <= 12`. -/
def gradeCheck (gs : List String) : Bool :=
  gs.getD 2 "" ≠ "" && pyIsDigit (pyStrip (gs.getD 2 "")) &&
    pyToNat (pyStrip (gs.getD 2 "")) ≤ 12

/-- The trailing-remainder token scan shared verbatim by both fallback
mappers: integers fill heat then points, a signed decimal fills wind. -/
def remScan : List String → ParsedResult → ParsedResult
  | [], r => r
  | item :: rest, r =>
    if pyIsDigit item then
      if r.heat = "" then remScan rest { r with heat := item }
      else if r.points = "" then remScan rest { r with points := item }
      else remScan rest r
    else if reTest windRegex item then remScan rest { r with wind := item }
    else remScan rest r

/-- The group-to-field mapping of `parse_result_line` (lines 461-502 of
the source), applied to `match.groups()` (unmatched groups as `""`). -/
def mapGroupsPRL (line : String) (gs : List String) : ParsedResult :=
  let r0 : ParsedResult := { place := gs.getD 0 "" }
  if gs.length ≥ 4 then
    if strContains (pyUpper line) "RELAY" || gs.length == 5 then
      let r1 := { r0 with school := pyStrip (gs.getD 1 ""),
                          mark := pyStrip (gs.getD 2 "") }
      let r2 := if gs.length > 3 && gs.getD 3 "" ≠ "" then
          { r1 with heat := if gs.getD 3 "" ≠ "" then pyStrip (gs.getD 3 "") else "" }
        else r1
      if gs.length > 4 && gs.getD 4 "" ≠ "" then
        { r2 with points := if gs.getD 4 "" ≠ "" then pyStrip (gs.getD 4 "") else "" }
      else r2
    else
      let r1 := { r0 with name := pyStrip (gs.getD 1 "") }
      let r2 :=
        if gs.length ≥ 5 then
          if gradeCheck gs then
            { r1 with
              grade := if pyIsDigit (pyStrip (gs.getD 2 "")) then pyStrip (gs.getD 2 "") else "",
              school := pyStrip (gs.getD 3 ""), mark := pyStrip (gs.getD 4 "") }
          else { r1 with school := pyStrip (gs.getD 2 ""),
                         mark := pyStrip (gs.getD 3 "") }
        else { r1 with school := pyStrip (gs.getD 2 ""),
                       mark := pyStrip (gs.getD 3 "") }
      if gs.length > 4 && gs.getLast?.getD "" ≠ "" then
        remScan (pySplitWs (pyStrip (gs.getLast?.getD ""))) r2
      else r2
  else r0

/-- The group-to-field mapping of `parse_with_fallback_logic` (lines
365-400 of the source; same logic as `mapGroupsPRL` up to two redundant
conditionals there). -/
def mapGroupsPWFL (line : String) (gs : List String) : ParsedResult :=
  let r0 : ParsedResult := { place := gs.getD 0 "" }
  if gs.length ≥ 4 then
    if strContains (pyUpper line) "RELAY" || gs.length == 5 then
      let r1 := { r0 with school := pyStrip (gs.getD 1 ""),
                          mark := pyStrip (gs.getD 2 "") }
      let r2 := if gs.length > 3 && gs.getD 3 "" ≠ "" then
          { r1 with heat := pyStrip (gs.getD 3 "") }
        else r1
      if gs.length > 4 && gs.getD 4 "" ≠ "" then
        { r2 with points := pyStrip (gs.getD 4 "") }
      else r2
    else
      let r1 := { r0 with name := pyStrip (gs.getD 1 "") }
      let r2 :=
        if gs.length ≥ 5 && gradeCheck gs then
          { r1 with grade := pyStrip (gs.getD 2 ""),
                    school := pyStrip (gs.getD 3 ""),
                    mark := pyStrip (gs.getD 4 "") }
        else { r1 with school := pyStrip (gs.getD 2 ""),
                       mark := pyStrip (gs.getD 3 "") }
      if gs.length > 4 && gs.getLast?.getD "" ≠ "" then
        remScan (pySplitWs (pyStrip (gs.getLast?.getD ""))) r2
      else r2
  else r0

/-- The shared ordered fallback pattern list (the source repeats the same
three regex literals verbatim in `parse_with_fallback_logic` and
`parse_result_line`): first match wins. -/
def tryFallbackPatterns (line : String) : Option (List String) :=
  match reMatchGroups fbPat1 8 line with
  | some gs => some gs
  | none =>
    match reMatchGroups fbPat2 5 line with
    | some gs => some gs
    | none => reMatchGroups fbPat3 5 line

/-- `parse_with_fallback_logic(line, column_map)` — the unused legacy
variant; its `column_map` parameter is never read and is omitted.  It
does not strip the line and has no `=`/`-` early return. -/
def parse_with_fallback_logic (line : String) : ParsedResult :=
  match tryFallbackPatterns line with
  | some gs => mapGroupsPWFL line gs
  | none => { review := true }

/-- The regex-fallback branch of `parse_result_line` (no column map). -/
def parse_result_line_fb (line0 : String) : ParsedResult :=
  let line := pyStrip line0
  if line = "" || strStartsWith line "=" || strStartsWith line "-" then
    { review := true }
  else
    match tryFallbackPatterns line with
    | some gs => mapGroupsPRL line gs
    | none => { review := true }

/-- `parse_result_line(line, column_map)`: column-guided when a map is
passed, regex fallback otherwise. -/
def parse_result_line (line : String) :
    Option (List (String × Nat)) → ParsedResult
  | some cm => parse_result_line_with_columns line cm
  | none => parse_result_line_fb line

/-! ## Fuzzy normalization (scorer and vocabularies as parameters) -/

/-- `process.extractOne(q, choices)[1]`: the best similarity score of `q`
against a non-empty choice list (only the score is used by the source). -/
def bestListScore (sc : String → String → Nat) (q : String)
    (choices : List String) : Nat :=
  choices.foldl (fun acc c => max acc (sc q c)) 0

/-- The vocabulary scan of `normalize_event`/`normalize_school`: fold the
entries in order, keeping the first entry whose combined
(canonical :: alternates) score strictly improves on the best so far. -/
def normScanLoop (sc : String → String → Nat)
    (vocab : List (String × List String)) (q : String) : String × Nat :=
  vocab.foldl (fun best e =>
    let s := bestListScore sc q (e.1 :: e.2)
    if s > best.2 then (e.1, s) else best) ("", 0)

/-- `normalize_event(event_name, review_bool)`: strips the raw name, scans
the event vocabulary, accepts strictly above 80. -/
def normalize_event (sc : String → String → Nat)
    (vocab : List (String × List String)) (event_name : String)
    (review_bool : Bool) : String × Bool :=
  let en := pyStrip event_name
  let best := normScanLoop sc vocab en
  if best.2 > 80 then (best.1, review_bool) else (en, true)

/-- `normalize_school(school_name, review_bool)`: no strip, threshold 85. -/
def normalize_school (sc : String → String → Nat)
    (vocab : List (String × List String)) (school_name : String)
    (review_bool : Bool) : String × Bool :=
  let best := normScanLoop sc vocab school_name
  if best.2 > 85 then (best.1, review_bool) else (school_name, true)

/-- An exact-match scorer used to instantiate the external-scorer
parameter in concrete witnesses. -/
def eqScore (a b : String) : Nat := if a = b then 100 else 0

/-! ## Name splitter and line classifiers -/

/-- The whitespace path of `parse_name` (lines 101-109). -/
def parse_name_ws (full : String) : String × String :=
  match pySplitWs full with
  | [] => ("", "")
  | [t] => (t, "")
  | t :: rest => (joinSpace rest, t)

/-- `parse_name(full_name)`: comma form `(last, first)` from the first
comma, else whitespace form. -/
def parse_name (full : String) : String × String :=
  if strContains full "," then
    match pySplitComma1 full with
    | [a, b] => (pyStrip a, pyStrip b)
    | _ => parse_name_ws full
  else parse_name_ws full

/-- `extract_gender_from_event(event_line)`: substring scan of the
lower-cased line, boys-words first. -/
def extract_gender_from_event (event_line : String) : String :=
  let ll := pyLower event_line
  if (["boys", "boy", "men", "male"].any fun w => strContains ll w) then "M"
  else if (["girls", "girl", "women", "female"].any fun w => strContains ll w)
    then "F"
  else ""

/-- `extract_round_from_line(line)`. -/
def extract_round_from_line (line : String) : String :=
  let ll := pyLower line
  if strContains ll "final" && !strContains ll "semi" then "Final"
  else if strContains ll "semi" then "Semi-Final"
  else if strContains ll "prelim" then "Prelim"
  else ""

/-- The column-indicator word list of `is_header_line`. -/
def headerIndicators : List String :=
  ["place", "athlete", "name", "school", "time", "mark", "heat",
   "wind", "points", "grade", "year", "lane", "flight", "finals"]

/-- `re.search(r'^\s*\d+', line)`: with `^` anchored to the string start
this holds exactly when the first non-whitespace character is a digit. -/
def startsWithWsDigit (line : String) : Bool :=
  match line.data.dropWhile isPySpace with
  | c :: _ => isPyDigit c
  | [] => false

/-- `is_header_line(line)`: at least two indicator substrings, does not
begin with (whitespace and) a digit, at least three tokens. -/
def is_header_line (line : String) : Bool :=
  let ll := pyLower line
  (headerIndicators.filter fun w => strContains ll w).length ≥ 2 &&
    !startsWithWsDigit line && (pySplitWs line).length ≥ 3

/-- The bracket/hash characters stripped from header tokens
(`header.strip('()[]{}#')`). -/
def headerBrackets : List Char :=
  ['(', ')', '[', ']', '\x7b', '\x7d', '#']

/-- Python dict assignment `m[k] = v` on an insertion-ordered
association list: overwrite in place if present, else append. -/
def dictSet (m : List (String × Nat)) (k : String) (v : Nat) :
    List (String × Nat) :=
  if m.any (fun p => p.1 = k) then
    m.map (fun p => if p.1 = k then (k, v) else p)
  else m ++ [(k, v)]

/-- One step of `identify_column_order`: classify the `i`-th header token
into a canonical field (later duplicates overwrite, Python dict update). -/
def icoStep (m : List (String × Nat)) (i : Nat) (header : String) :
    List (String × Nat) :=
  let ch := pyStripChars headerBrackets header
  if ["place", "pl", "pos", "position"].contains ch then dictSet m "place" i
  else if ["name", "athlete", "competitor"].contains ch then dictSet m "name" i
  else if ["school", "affiliation", "team", "club"].contains ch then
    dictSet m "school" i
  else if ["time", "mark", "finals", "result", "performance"].contains ch then
    dictSet m "mark" i
  else if ["heat", "ht", "h#", "flight", "fl"].contains ch then
    dictSet m "heat" i
  else if ["wind", "w", "wind.", "wnd"].contains ch then dictSet m "wind" i
  else if ["points", "pts", "pt", "score"].contains ch then
    dictSet m "points" i
  else if ["year", "grade", "yr", "class"].contains ch then
    dictSet m "grade" i
  else if ["lane", "ln"].contains ch then dictSet m "lane" i
  else m

/-- `identify_column_order(header_line)`: lower-case, whitespace-split,
classify each token by position. -/
def identify_column_order (header_line : String) : List (String × Nat) :=
  ((pySplitWs (pyLower header_line)).enum).foldl
    (fun m p => icoStep m p.1 p.2) []

/-! ## Meet context tracker and conversion driver -/

/-- The mutable conversion context (`current_event` etc.). -/
structure MeetContext where
  event : String := ""
  gender : String := ""
  round : String := ""
  columnMap : List (String × Nat) := []
deriving DecidableEq, Repr

/-- One output row (caller metadata, copied verbatim by the source, is
omitted: no claim concerns it). -/
structure OutputRow where
  event : String
  round : String
  gender : String
  place : String
  lastName : String
  firstName : String
  grade : String
  school : String
  mark : String
  heat : String
  wind : String
  points : String
  review : Bool
deriving DecidableEq, Repr

/-- Gender/raw-name extraction from a matched event pattern's two groups
(lines 567-588; every event pattern has exactly two groups, so the
`len(groups) == 2` test of the source is always true). -/
def genderFromGroups (line g0 g1 : String) : String × String :=
  if ["boys", "boy"].contains (pyLower g0) then ("M", pyStrip g1)
  else if ["girls", "girl"].contains (pyLower g0) then ("F", pyStrip g1)
  else if ["boys", "boy"].contains (pyLower g1) then ("M", pyStrip g0)
  else if ["girls", "girl"].contains (pyLower g1) then ("F", pyStrip g0)
  else (extract_gender_from_event line, pyStrip line)

/-- The event-detection loop (lines 561-596): the three event patterns
are searched in order; the first match yields (gender, raw event name). -/
def detectEvent (line : String) : Option (String × String) :=
  match reSearchGroups evPat1 2 line with
  | some gs => some (genderFromGroups line (gs.getD 0 "") (gs.getD 1 ""))
  | none =>
    match reSearchGroups evPat2 2 line with
    | some gs => some (genderFromGroups line (gs.getD 0 "") (gs.getD 1 ""))
    | none =>
      match reSearchGroups evPat3 2 line with
      | some gs => some (genderFromGroups line (gs.getD 0 "") (gs.getD 1 ""))
      | none => none

/-- The divider/noise test of the driver (lines 618-621). -/
def isDividerNoise (line : String) : Bool :=
  strStartsWith line "=" || strStartsWith line "-" ||
    strContains line "COMPLETE RESULTS" || strContains line "Page" ||
    strStartsWith (pyLower line) "event" || (pySplitWs line).length < 3

/-- Row assembly (lines 630-656): split the name, normalize the school,
default the round to Final, OR the review flags. -/
def assembleRow (ssc : String → String → Nat)
    (svocab : List (String × List String)) (ctx : MeetContext)
    (r : ParsedResult) : OutputRow :=
  let nm := if r.name ≠ "" then parse_name r.name else ("", "")
  let sch := if r.school ≠ "" then
      normalize_school ssc svocab (pyStrip r.school) r.review
    else (r.school, r.review)
  { event := ctx.event,
    round := if ctx.round = "" then "Final" else ctx.round,
    gender := ctx.gender, place := r.place,
    lastName := nm.1, firstName := nm.2,
    grade := r.grade, school := sch.1, mark := r.mark, heat := r.heat,
    wind := r.wind, points := r.points, review := sch.2 || r.review }

/-- One iteration of the driver loop of `parse_results` (lines 552-663):
strip the line, then in order: skip empty, event detection (which resets
round and column map and discards the event-normalization review flag),
round line, header line, divider/noise, and finally — only under an
active event — result parsing and conditional row emission. -/
def processLine (esc ssc : String → String → Nat)
    (evocab svocab : List (String × List String)) (ctx : MeetContext)
    (rawLine : String) : MeetContext × Option OutputRow :=
  let line := pyStrip rawLine
  if line = "" then (ctx, none)
  else
    match detectEvent line with
    | some gr =>
      ({ event := (normalize_event esc evocab gr.2 false).1, gender := gr.1,
         round := "", columnMap := [] }, none)
    | none =>
      if extract_round_from_line line ≠ "" then
        ({ ctx with round := extract_round_from_line line }, none)
      else if is_header_line line then
        ({ ctx with columnMap := identify_column_order line }, none)
      else if isDividerNoise line then (ctx, none)
      else if ctx.event ≠ "" then
        let r := parse_result_line line
          (if ctx.columnMap ≠ [] then some ctx.columnMap else none)
        if !r.review && (r.name ≠ "" || r.school ≠ "") then
          (ctx, some (assembleRow ssc svocab ctx r))
        else (ctx, none)
      else (ctx, none)

/-- `parse_results`: fold the driver over the input lines, collecting
emitted rows in input order. -/
def parse_results (esc ssc : String → String → Nat)
    (evocab svocab : List (String × List String)) (lines : List String) :
    List OutputRow :=
  (lines.foldl (fun st l =>
    let step := processLine esc ssc evocab svocab st.1 l
    (step.1, match step.2 with
      | some row => st.2 ++ [row]
      | none => st.2)) (({} : MeetContext), ([] : List OutputRow))).2

/-- A concrete context fixture used by witnesses: an active event with
the column map of the header `"Place Name School Time"`. -/
def wCtx : MeetContext :=
  { event := "100", gender := "F", round := "",
    columnMap := [("place", 0), ("name", 1), ("school", 2), ("mark", 3)] }

set_option maxRecDepth 400000

/-! ## Theorems -/

/-- Claim C5 (code_bug evaluation): the gender scan tests raw substring
containment, and `"men"` is a substring of `"women"`, `"male"` of
`"female"`, so an event line for women/females is classified Male — the
female-indicating list entries `"women"` and `"female"` are unreachable. -/
theorem C5_women_line_yields_M :
    extract_gender_from_event "Women 100 Meter Dash" = "M" ∧
    extract_gender_from_event "Female 4x400 Relay" = "M" := by decide

/-- Claim C3 (counterexample): the line `"1 John Smith 12.34 abc"` fails
fallback pattern 1, matches fallback pattern 2 with groups
`1/John/Smith/12.34/abc`, contains no `RELAY` — yet the parsed result has
an empty name and school `"John"` (the relay mapping fired because
pattern 2 always yields exactly five groups), not name `"John"` /
school `"Smith"` as the claim requires. -/
theorem C3_counterexample :
    reMatchGroups fbPat1 8 "1 John Smith 12.34 abc" = none ∧
    reMatchGroups fbPat2 5 "1 John Smith 12.34 abc" =
      some ["1", "John", "Smith", "12.34", "abc"] ∧
    strContains (pyUpper "1 John Smith 12.34 abc") "RELAY" = false ∧
    (parse_result_line_fb "1 John Smith 12.34 abc").name = "" ∧
    (parse_result_line_fb "1 John Smith 12.34 abc").school = "John" ∧
    (parse_result_line_fb "1 John Smith 12.34 abc").mark = "Smith" := by decide

/-- Claim C4 (counterexample): the line
`"1 John 10 Smith 12.34 2 +1.5 8"` matches fallback pattern 1 with heat
capture `"2"`, wind capture `"+1.5"` and points capture `"8"`, parsed as
an individual result — yet the parsed fields are heat `"8"`, wind `""`,
points `""`: the heat and wind captures are dropped and the points
capture lands in heat. -/
theorem C4_counterexample :
    reMatchGroups fbPat1 8 "1 John 10 Smith 12.34 2 +1.5 8" =
      some ["1", "John", "10", "Smith", "12.34", "2", "+1.5", "8"] ∧
    strContains (pyUpper "1 John 10 Smith 12.34 2 +1.5 8") "RELAY" = false ∧
    (parse_result_line_fb "1 John 10 Smith 12.34 2 +1.5 8").heat = "8" ∧
    (parse_result_line_fb "1 John 10 Smith 12.34 2 +1.5 8").wind = "" ∧
    (parse_result_line_fb "1 John 10 Smith 12.34 2 +1.5 8").points = "" := by
  decide

/-- Claim C6 (counterexample): `normalize_event` strips the raw token
before matching and, below threshold, returns the stripped token — so a
token with surrounding whitespace is not returned unchanged. -/
theorem C6_counterexample :
    normalize_event eqScore [] " X " false = ("X", true) ∧
    (" X " : String) ≠ "X" := by decide

/-- Claim C10 (counterexample): on `"-- John Smith 12.34"`,
`parse_result_line` (no column map) trims and early-returns review with
all fields empty because the line starts with `-`, while the legacy
`parse_with_fallback_logic` has no such guard and parses the line via
fallback pattern 2 with review false. -/
theorem C10_counterexample :
    parse_with_fallback_logic "-- John Smith 12.34" ≠
      parse_result_line "-- John Smith 12.34" none ∧
    (parse_with_fallback_logic "-- John Smith 12.34").review = false ∧
    (parse_result_line "-- John Smith 12.34" none).review = true := by decide

/-- Claim C1 (counterexample): a three-line input — event line, header
line, then the candidate result line `"1  Smith, John  99.999"` — in
which the event context is active and the parsed line yields a non-empty
name, yet no row is emitted: the column-guided parse sets review (its
mark is missing), and the driver emits only when the parse review flag is
false.  The claim's "row emitted iff non-empty name or school" fails. -/
theorem C1_counterexample :
    (let step1 := processLine eqScore eqScore [] []
        (({} : MeetContext)) "Event 1 Girls 100"
     let step2 := processLine eqScore eqScore [] [] step1.1
        "Place Name School Time"
     let r := parse_result_line "1  Smith, John  99.999"
        (if step2.1.columnMap ≠ [] then some step2.1.columnMap else none)
     step2.1.event = "100" ∧ step2.1.columnMap ≠ [] ∧
     r.name = "Smith, John" ∧ r.review = true ∧
     (processLine eqScore eqScore [] [] step2.1 "1  Smith, John  99.999").2
       = none) ∧
    parse_results eqScore eqScore [] []
      ["Event 1 Girls 100", "Place Name School Time",
       "1  Smith, John  99.999"] = [] := by decide

/-- Claim C2 (counterexample): with an empty event vocabulary the event
normalization of `"100"` forces its review flag true, yet the emitted row
for that event has Review = false (the school normalization succeeds and
the result-line review is false): the event-normalization review flag
does not enter the row's Review, refuting the three-way OR. -/
theorem C2_counterexample :
    (parse_results eqScore eqScore [] [("Lincoln", [])]
      ["Event 1 Girls 100", "Place Name School Time",
       "1  Smith, Jane  Lincoln  12.34"]).map
        (fun row => (row.event, row.school, row.review)) =
      [("100", "Lincoln", false)] ∧
    normalize_event eqScore [] "100" false = ("100", true) := by decide

/-- The empty line is never detected as an event line. -/
theorem detectEvent_empty : detectEvent "" = none := by decide

/-- Claim C9 (confirmed): whenever the driver detects an event line, the
resulting context has the round reset to unset and the column map reset
to empty in that same step, for every prior context. -/
theorem C9_event_resets_round_and_map (esc ssc : String → String → Nat)
    (evocab svocab : List (String × List String)) (ctx : MeetContext)
    (raw : String) (h : (detectEvent (pyStrip raw)).isSome) :
    (processLine esc ssc evocab svocab ctx raw).1.round = "" ∧
    (processLine esc ssc evocab svocab ctx raw).1.columnMap = [] := by
  have hne : ¬(pyStrip raw = "") := by
    intro he
    rw [he, detectEvent_empty] at h
    simp at h
  obtain ⟨gr, hgr⟩ := Option.isSome_iff_exists.mp h
  refine ⟨?_, ?_⟩ <;> simp only [processLine, if_neg hne, hgr]

/-- Claim C9 witness: a concrete event line under a context with a live
round and column map; after the step, both are reset. -/
theorem C9_witness :
    (detectEvent (pyStrip "Event 1 Girls 100")).isSome ∧
    (processLine eqScore eqScore [] []
      { event := "X", gender := "M", round := "Final",
        columnMap := [("place", 0)] } "Event 1 Girls 100").1.round = "" ∧
    (processLine eqScore eqScore [] []
      { event := "X", gender := "M", round := "Final",
        columnMap := [("place", 0)] } "Event 1 Girls 100").1.columnMap = [] :=
  ⟨by decide,
   C9_event_resets_round_and_map eqScore eqScore [] [] _ _ (by decide)⟩

/-- Claim C1 (amended, proved): for every candidate result line processed
while an event context is active (the line survives the event, round,
header and divider/noise classifiers), a row is emitted if and only if
the parsed result's review flag is false AND the parse yields a non-empty
name or school.  (The original claim omitted the review conjunct: parsed
results with review = true are discarded, not emitted.) -/
theorem C1_emission_rule (esc ssc : String → String → Nat)
    (evocab svocab : List (String × List String)) (ctx : MeetContext)
    (raw : String)
    (h0 : pyStrip raw ≠ "")
    (h1 : detectEvent (pyStrip raw) = none)
    (h2 : extract_round_from_line (pyStrip raw) = "")
    (h3 : is_header_line (pyStrip raw) = false)
    (h4 : isDividerNoise (pyStrip raw) = false)
    (h5 : ctx.event ≠ "") :
    (processLine esc ssc evocab svocab ctx raw).2.isSome =
      (let r := parse_result_line (pyStrip raw)
        (if ctx.columnMap ≠ [] then some ctx.columnMap else none)
       !r.review && (r.name ≠ "" || r.school ≠ "")) := by
  simp only [processLine, if_neg h0, h1, h2, h3, h4, ne_eq,
    not_true_eq_false, if_false, Bool.false_eq_true]
  split
  · split <;> (split <;> simp_all)
  · simp_all

/-- Claim C1 witness: a concrete candidate line whose parse has review
false and a non-empty name, so the rule yields emission. -/
theorem C1_emission_rule_witness :
    (processLine eqScore eqScore [] [("Lincoln", [])]
      { event := "100", gender := "F", round := "",
        columnMap := [("place", 0), ("name", 1), ("school", 2), ("mark", 3)] }
      "1  Smith, Jane  Lincoln  12.34").2.isSome = true :=
  (C1_emission_rule eqScore eqScore [] [("Lincoln", [])]
    { event := "100", gender := "F", round := "",
      columnMap := [("place", 0), ("name", 1), ("school", 2), ("mark", 3)] }
    "1  Smith, Jane  Lincoln  12.34"
    (by decide) (by decide) (by decide) (by decide) (by decide)
    (by decide)).trans (by decide)

/-- Claim C2 (amended, proved): every emitted row's Review field is the
OR of exactly two flags — the result-line parse review flag and the
review flag produced by normalizing the school name — with the
event-normalization review flag playing no part (the source computes it
on the event line and discards it). -/
theorem C2_review_two_flags (esc ssc : String → String → Nat)
    (evocab svocab : List (String × List String)) (ctx : MeetContext)
    (raw : String) (row : OutputRow)
    (h0 : pyStrip raw ≠ "")
    (h1 : detectEvent (pyStrip raw) = none)
    (h2 : extract_round_from_line (pyStrip raw) = "")
    (h3 : is_header_line (pyStrip raw) = false)
    (h4 : isDividerNoise (pyStrip raw) = false)
    (hrow : (processLine esc ssc evocab svocab ctx raw).2 = some row) :
    (let r := parse_result_line (pyStrip raw)
      (if ctx.columnMap ≠ [] then some ctx.columnMap else none)
     row.review = ((if r.school ≠ "" then
        normalize_school ssc svocab (pyStrip r.school) r.review
      else (r.school, r.review)).2 || r.review)) := by
  simp only [processLine, if_neg h0, h1, h2, h3, h4, ne_eq,
    not_true_eq_false, if_false, Bool.false_eq_true] at hrow
  split at hrow
  · split at hrow
    · split at hrow
      · simp only [Option.some.injEq] at hrow
        subst hrow
        split
        · rfl
        · simp_all
      · simp at hrow
    · split at hrow
      · simp only [Option.some.injEq] at hrow
        subst hrow
        split
        · simp_all
        · rfl
      · simp at hrow
  · simp at hrow

/-- Claim C2 witness: a concrete emitted row (school vocabulary empty, so
the school normalization sets review) whose Review field is computed by
the two-flag OR. -/
theorem C2_review_two_flags_witness :
    (let r := parse_result_line (pyStrip "1  Smith, Jane  Lincoln  12.34")
      (if wCtx.columnMap ≠ [] then some wCtx.columnMap else none)
     ({ event := "100", round := "Final", gender := "F", place := "1",
        lastName := "Smith", firstName := "Jane", grade := "",
        school := "Lincoln", mark := "12.34", heat := "", wind := "",
        points := "", review := true } : OutputRow).review =
       ((if r.school ≠ "" then
          normalize_school eqScore [] (pyStrip r.school) r.review
        else (r.school, r.review)).2 || r.review)) :=
  C2_review_two_flags eqScore eqScore [] [] wCtx
    "1  Smith, Jane  Lincoln  12.34" _
    (by decide) (by decide) (by decide) (by decide) (by decide) (by decide)

/-- Stripping the empty string is the empty string. -/
theorem pyStrip_empty : pyStrip "" = "" := rfl

/-- The two fallback group-to-field mappers agree on every line and group
list: their only differences are two redundant inner conditionals and an
equivalent nesting of the grade test. -/
theorem mapGroups_eq (line : String) (gs : List String) :
    mapGroupsPWFL line gs = mapGroupsPRL line gs := by
  simp only [mapGroupsPWFL, mapGroupsPRL]
  by_cases h4 : gs.length ≥ 4
  · simp only [if_pos h4]
    by_cases hrel : (strContains (pyUpper line) "RELAY" || gs.length == 5) = true
    · simp only [hrel, if_true]
      have h3l : 3 < gs.length := by omega
      by_cases h3 : gs[3]?.getD "" = ""
      · by_cases hp : 4 < gs.length ∧ ¬gs[4]?.getD "" = ""
        · simp_all
        · simp_all
      · by_cases hp : 4 < gs.length ∧ ¬gs[4]?.getD "" = ""
        · simp_all
        · simp_all
    · simp only [Bool.not_eq_true] at hrel
      simp only [hrel, Bool.false_eq_true, if_false]
      by_cases h5 : gs.length ≥ 5
      · by_cases hg : gradeCheck gs = true
        · have hd : pyIsDigit (pyStrip (gs[2]?.getD "")) = true := by
            simp only [gradeCheck, Bool.and_eq_true, decide_eq_true_eq] at hg
            simpa using hg.1.2
          simp_all
        · simp_all
      · have hno : ¬(5 ≤ gs.length) := by omega
        simp [hno]
  · simp [h4]

/-- Claim C10 (amended, proved): the legacy `parse_with_fallback_logic`
returns exactly the same parsed result as the regex-fallback branch of
`parse_result_line` on every line that equals its own trimmed form, is
non-empty and does not start with `=` or `-`; the counterexample shows
the two differ precisely on the early-return guard that only
`parse_result_line` has. -/
theorem C10_fallback_agreement (l : String)
    (ht : pyStrip l = l) (h0 : l ≠ "")
    (h1 : strStartsWith l "=" = false) (h2 : strStartsWith l "-" = false) :
    parse_with_fallback_logic l = parse_result_line l none := by
  show parse_with_fallback_logic l = parse_result_line_fb l
  simp only [parse_with_fallback_logic, parse_result_line_fb, ht, h0, h1, h2,
    Bool.or_false, Bool.false_or, decide_eq_true_eq, if_false,
    Bool.false_eq_true, decide_not]
  cases htry : tryFallbackPatterns l with
  | none => rfl
  | some gs => exact mapGroups_eq l gs

/-- Claim C10 witness: a concrete already-trimmed line on which the two
functions agree. -/
theorem C10_fallback_agreement_witness :
    parse_with_fallback_logic "1 Jo Sm 12.34" =
      parse_result_line "1 Jo Sm 12.34" none :=
  C10_fallback_agreement "1 Jo Sm 12.34" (by decide) (by decide) (by decide)
    (by decide)

/-- A successful `reMatchGroups pat n` always yields exactly `n` groups. -/
theorem reMatchGroups_length (pat : RE) (n : Nat) (s : String)
    (gs : List String) (h : reMatchGroups pat n s = some gs) :
    gs.length = n := by
  simp only [reMatchGroups, Option.map_eq_some'] at h
  obtain ⟨r, _, hr⟩ := h
  simp [← hr]

/-- Claim C3 (amended, proved): a line (trimmed, non-empty, not starting
with `=`/`-`) that fails fallback pattern 1 and matches fallback
pattern 2 is always mapped as relay/team form — pattern 2 has exactly
five capture groups, which triggers the five-group relay heuristic even
without the word RELAY: the second capture group becomes the school, the
third the mark, the fourth the heat, the fifth the points, and the name
field stays empty. -/
theorem C3_pattern2_relay_mapping (line : String) (gs : List String)
    (h0 : pyStrip line ≠ "")
    (h1 : strStartsWith (pyStrip line) "=" = false)
    (h2 : strStartsWith (pyStrip line) "-" = false)
    (hp1 : reMatchGroups fbPat1 8 (pyStrip line) = none)
    (hp2 : reMatchGroups fbPat2 5 (pyStrip line) = some gs) :
    (parse_result_line_fb line).name = "" ∧
    (parse_result_line_fb line).place = gs.getD 0 "" ∧
    (parse_result_line_fb line).school = pyStrip (gs.getD 1 "") ∧
    (parse_result_line_fb line).mark = pyStrip (gs.getD 2 "") ∧
    (parse_result_line_fb line).heat =
      (if gs.getD 3 "" ≠ "" then pyStrip (gs.getD 3 "") else "") ∧
    (parse_result_line_fb line).points =
      (if gs.getD 4 "" ≠ "" then pyStrip (gs.getD 4 "") else "") := by
  have hlen : gs.length = 5 := reMatchGroups_length _ _ _ _ hp2
  simp only [parse_result_line_fb, h0, h1, h2, tryFallbackPatterns, hp1, hp2,
    Bool.or_false, Bool.false_or, if_false, Bool.false_eq_true,
    decide_eq_true_eq]
  simp only [mapGroupsPRL, hlen]
  by_cases h3 : gs.getD 3 "" = "" <;> by_cases h4 : gs.getD 4 "" = "" <;>
    simp_all

/-- Claim C3 witness: the concrete pattern-2 line, with the relay mapping
instantiated. -/
theorem C3_pattern2_relay_mapping_witness :
    (parse_result_line_fb "1 John Smith 12.34 abc").name = "" ∧
    (parse_result_line_fb "1 John Smith 12.34 abc").place =
      (["1", "John", "Smith", "12.34", "abc"].getD 0 "") ∧
    (parse_result_line_fb "1 John Smith 12.34 abc").school =
      pyStrip (["1", "John", "Smith", "12.34", "abc"].getD 1 "") ∧
    (parse_result_line_fb "1 John Smith 12.34 abc").mark =
      pyStrip (["1", "John", "Smith", "12.34", "abc"].getD 2 "") ∧
    (parse_result_line_fb "1 John Smith 12.34 abc").heat =
      (if (["1", "John", "Smith", "12.34", "abc"].getD 3 "") ≠ "" then
        pyStrip (["1", "John", "Smith", "12.34", "abc"].getD 3 "") else "") ∧
    (parse_result_line_fb "1 John Smith 12.34 abc").points =
      (if (["1", "John", "Smith", "12.34", "abc"].getD 4 "") ≠ "" then
        pyStrip (["1", "John", "Smith", "12.34", "abc"].getD 4 "") else "") :=
  C3_pattern2_relay_mapping "1 John Smith 12.34 abc"
    ["1", "John", "Smith", "12.34", "abc"]
    (by decide) (by decide) (by decide) (by decide) (by decide)

/-- A digit character is not a whitespace character. -/
theorem isPyDigit_not_space (c : Char) (h : isPyDigit c = true) :
    isPySpace c = false := by
  by_contra hs
  simp only [Bool.not_eq_false, isPySpace, Bool.or_eq_true,
    decide_eq_true_eq] at hs
  rcases hs with ((((hc | hc) | hc) | hc) | hc) | hc <;>
    (subst hc; exact absurd h (by decide))

/-- `dropWhile` is the identity when no element satisfies the predicate. -/
theorem dropWhile_eq_self_of_none (p : Char → Bool) (l : List Char)
    (h : ∀ c ∈ l, p c = false) : l.dropWhile p = l := by
  cases l with
  | nil => rfl
  | cons c rest =>
    rw [List.dropWhile_cons, h c (List.mem_cons_self c rest)]
    simp

/-- Stripping an all-digit string changes nothing. -/
theorem pyStrip_all_digits (s : String) (h : s.data.all isPyDigit = true) :
    pyStrip s = s := by
  obtain ⟨l⟩ := s
  simp only [List.all_eq_true] at h
  have hns : ∀ c ∈ l, isPySpace c = false := fun c hc =>
    isPyDigit_not_space c (h c hc)
  simp only [pyStrip]
  rw [dropWhile_eq_self_of_none _ _ hns,
    dropWhile_eq_self_of_none _ _ (fun c hc =>
      hns c (List.mem_reverse.mp hc)),
    List.reverse_reverse]

/-- Splitting a non-empty string with no whitespace yields one token. -/
theorem pySplitWsAux_no_space (l : List Char)
    (h : ∀ c ∈ l, isPySpace c = false) :
    ∀ cur : List Char, cur ≠ [] ∨ l ≠ [] →
      pySplitWsAux cur l = [String.mk (cur.reverse ++ l)] := by
  induction l with
  | nil =>
    intro cur hne
    rcases hne with hc | hl
    · simp [pySplitWsAux, hc]
    · exact absurd rfl hl
  | cons c rest ih =>
    intro cur _
    have hc : isPySpace c = false := h c (List.mem_cons_self c rest)
    simp only [pySplitWsAux, hc, Bool.false_eq_true, if_false]
    rw [ih (fun d hd => h d (List.mem_cons_of_mem c hd)) (c :: cur)
      (Or.inl (by simp))]
    simp

/-- Splitting an all-digit non-empty string yields the string itself. -/
theorem pySplitWs_all_digits (s : String) (hne : s ≠ "")
    (h : s.data.all isPyDigit = true) : pySplitWs s = [s] := by
  obtain ⟨l⟩ := s
  simp only [List.all_eq_true] at h
  have hns : ∀ c ∈ l, isPySpace c = false := fun c hc =>
    isPyDigit_not_space c (h c hc)
  have hl : l ≠ [] := by
    intro he
    exact hne (by simp [he])
  simp only [pySplitWs]
  rw [pySplitWsAux_no_space l hns [] (Or.inr hl)]
  simp

/-- Claim C4 (amended, proved): for a line (trimmed, non-empty, not
starting with `=`/`-`, without the word RELAY) matching fallback
pattern 1 as an individual result, the heat and wind captures (groups 6
and 7) are ignored entirely; the remainder scan runs only on the points
capture (group 8, the last group), so the points value — a digit string
when present — lands in the heat field while the wind and points fields
stay empty. -/
theorem C4_pattern1_heat_wind_points (line : String) (gs : List String)
    (h0 : pyStrip line ≠ "")
    (h1 : strStartsWith (pyStrip line) "=" = false)
    (h2 : strStartsWith (pyStrip line) "-" = false)
    (hp1 : reMatchGroups fbPat1 8 (pyStrip line) = some gs)
    (hrel : strContains (pyUpper (pyStrip line)) "RELAY" = false)
    (hdig : (gs.getLast?.getD "").data.all isPyDigit = true) :
    (parse_result_line_fb line).heat = gs.getLast?.getD "" ∧
    (parse_result_line_fb line).wind = "" ∧
    (parse_result_line_fb line).points = "" := by
  have hlen : gs.length = 8 := reMatchGroups_length _ _ _ _ hp1
  simp only [parse_result_line_fb, h0, h1, h2, tryFallbackPatterns, hp1,
    Bool.or_false, Bool.false_or, if_false, Bool.false_eq_true,
    decide_eq_true_eq]
  simp only [mapGroupsPRL, hlen, hrel]
  by_cases hlast : gs.getLast?.getD "" = ""
  · by_cases hg : gradeCheck gs = true <;> simp_all
  · have hstrip : pyStrip (gs.getLast?.getD "") = gs.getLast?.getD "" :=
      pyStrip_all_digits _ hdig
    have hsplit : pySplitWs (gs.getLast?.getD "") = [gs.getLast?.getD ""] :=
      pySplitWs_all_digits _ hlast hdig
    have hdig2 : pyIsDigit (gs.getLast?.getD "") = true := by
      have hne : (gs.getLast?.getD "").data ≠ [] := by
        intro he
        exact hlast (congrArg String.mk he)
      simp [pyIsDigit, hdig, hne]
    by_cases hg : gradeCheck gs = true <;> simp_all [remScan]

/-- Claim C4 witness: the concrete pattern-1 line with heat/wind/points
captures 2 / +1.5 / 8; the parsed heat is the points capture 8, wind and
points empty. -/
theorem C4_pattern1_heat_wind_points_witness :
    (parse_result_line_fb "1 John 10 Smith 12.34 2 +1.5 8").heat =
      (["1", "John", "10", "Smith", "12.34", "2", "+1.5", "8"].getLast?.getD
        "") ∧
    (parse_result_line_fb "1 John 10 Smith 12.34 2 +1.5 8").wind = "" ∧
    (parse_result_line_fb "1 John 10 Smith 12.34 2 +1.5 8").points = "" :=
  C4_pattern1_heat_wind_points "1 John 10 Smith 12.34 2 +1.5 8"
    ["1", "John", "10", "Smith", "12.34", "2", "+1.5", "8"]
    (by decide) (by decide) (by decide) (by decide) (by decide) (by decide)

/-- The vocabulary scan either stays at its initial value or returns the
canonical name of some vocabulary entry. -/
theorem normScanFold_cases (sc : String → String → Nat) (q : String)
    (v : List (String × List String)) :
    ∀ acc : String × Nat,
      v.foldl (fun best e =>
        let s := bestListScore sc q (e.1 :: e.2)
        if s > best.2 then (e.1, s) else best) acc = acc ∨
      (v.foldl (fun best e =>
        let s := bestListScore sc q (e.1 :: e.2)
        if s > best.2 then (e.1, s) else best) acc).1 ∈ v.map Prod.fst := by
  induction v with
  | nil => intro acc; exact Or.inl rfl
  | cons e rest ih =>
    intro acc
    simp only [List.foldl_cons, List.map_cons, List.mem_cons]
    by_cases hs : bestListScore sc q (e.1 :: e.2) > acc.2
    · simp only [if_pos hs]
      rcases ih (e.1, bestListScore sc q (e.1 :: e.2)) with h | h
      · right; left; rw [h]
      · right; right; exact h
    · simp only [if_neg hs]
      rcases ih acc with h | h
      · left; exact h
      · right; right; exact h

/-- A scan that ends with a positive best score names a canonical key. -/
theorem normScanLoop_mem (sc : String → String → Nat)
    (vocab : List (String × List String)) (q : String)
    (h : (normScanLoop sc vocab q).2 > 0) :
    (normScanLoop sc vocab q).1 ∈ vocab.map Prod.fst := by
  unfold normScanLoop at h ⊢
  rcases normScanFold_cases sc q vocab ("", 0) with hc | hc
  · rw [hc] at h
    simp at h
  · exact hc

/-- Claim C6 (amended, proved): fuzzy normalization returns the
best-scoring canonical name (a key of the vocabulary) with the caller's
review flag unchanged exactly when the best score strictly exceeds the
threshold (80 events, 85 schools); otherwise it returns the raw token —
trimmed of surrounding whitespace in the event case, unchanged in the
school case — with review forced true. -/
theorem C6_threshold_behavior (esc ssc : String → String → Nat)
    (evocab svocab : List (String × List String)) (tok : String)
    (rb : Bool) :
    normalize_event esc evocab tok rb =
      (if (normScanLoop esc evocab (pyStrip tok)).2 > 80 then
        ((normScanLoop esc evocab (pyStrip tok)).1, rb)
      else (pyStrip tok, true)) ∧
    ((normScanLoop esc evocab (pyStrip tok)).2 > 80 →
      (normScanLoop esc evocab (pyStrip tok)).1 ∈ evocab.map Prod.fst) ∧
    normalize_school ssc svocab tok rb =
      (if (normScanLoop ssc svocab tok).2 > 85 then
        ((normScanLoop ssc svocab tok).1, rb)
      else (tok, true)) ∧
    ((normScanLoop ssc svocab tok).2 > 85 →
      (normScanLoop ssc svocab tok).1 ∈ svocab.map Prod.fst) := by
  refine ⟨rfl, ?_, rfl, ?_⟩
  · intro hgt
    exact normScanLoop_mem esc evocab (pyStrip tok) (by omega)
  · intro hgt
    exact normScanLoop_mem ssc svocab tok (by omega)

/-- Claim C6 witness: a canonical token scores 100 with the exact-match
scorer, is accepted with the review flag untouched, and the returned
name is a vocabulary key. -/
theorem C6_threshold_behavior_witness :
    normalize_event eqScore [("A", [])] "A" false = ("A", false) ∧
    (normScanLoop eqScore [("A", [])] (pyStrip "A")).1 ∈
      ([("A", [])] : List (String × List String)).map Prod.fst :=
  ⟨((C6_threshold_behavior eqScore eqScore [("A", [])] [] "A" false).1).trans
      (by decide),
   (C6_threshold_behavior eqScore eqScore [("A", [])] [] "A" false).2.1
      (by decide)⟩

/-- With a scorer bounded by 100, every entry score is bounded by 100. -/
theorem bestListScore_le (sc : String → String → Nat) (q : String)
    (hle : ∀ x y, sc x y ≤ 100) (choices : List String) :
    bestListScore sc q choices ≤ 100 := by
  have haux : ∀ (l : List String) (a : Nat), a ≤ 100 →
      l.foldl (fun acc c => max acc (sc q c)) a ≤ 100 := by
    intro l
    induction l with
    | nil => intro a ha; exact ha
    | cons c rest ih =>
      intro a ha
      exact ih _ (max_le ha (hle q c))
  exact haux choices 0 (by omega)

/-- The head's score bounds the best score of its choice list below. -/
theorem le_bestListScore_head (sc : String → String → Nat) (q a : String)
    (l : List String) : sc q a ≤ bestListScore sc q (a :: l) := by
  have haux : ∀ (l : List String) (acc : Nat),
      acc ≤ l.foldl (fun acc c => max acc (sc q c)) acc := by
    intro l
    induction l with
    | nil => intro acc; exact le_refl _
    | cons c rest ih =>
      intro acc
      exact le_trans (le_max_left _ _) (ih _)
  calc sc q a ≤ max 0 (sc q a) := le_max_right _ _
    _ ≤ _ := haux l _

/-- Scanning entries that all score strictly below 100 keeps the running
best strictly below 100. -/
theorem normScanFold_lt (sc : String → String → Nat) (q : String)
    (pre : List (String × List String))
    (hpre : ∀ e ∈ pre, bestListScore sc q (e.1 :: e.2) < 100) :
    ∀ acc : String × Nat, acc.2 < 100 →
      (pre.foldl (fun best e =>
        let s := bestListScore sc q (e.1 :: e.2)
        if s > best.2 then (e.1, s) else best) acc).2 < 100 := by
  induction pre with
  | nil => intro acc hacc; exact hacc
  | cons e rest ih =>
    intro acc hacc
    simp only [List.foldl_cons]
    by_cases hs : bestListScore sc q (e.1 :: e.2) > acc.2
    · simp only [if_pos hs]
      exact ih (fun d hd => hpre d (List.mem_cons_of_mem e hd)) _
        (hpre e (List.mem_cons_self e rest))
    · simp only [if_neg hs]
      exact ih (fun d hd => hpre d (List.mem_cons_of_mem e hd)) _ hacc

/-- Once the running best is `(nm, 100)` and every score is at most 100,
the scan never moves again (strict improvement is required). -/
theorem normScanFold_stay (sc : String → String → Nat) (q : String)
    (hle : ∀ x y, sc x y ≤ 100) (post : List (String × List String))
    (nm : String) :
    post.foldl (fun best e =>
      let s := bestListScore sc q (e.1 :: e.2)
      if s > best.2 then (e.1, s) else best) (nm, 100) = (nm, 100) := by
  induction post with
  | nil => rfl
  | cons e rest ih =>
    simp only [List.foldl_cons]
    have hns : ¬(bestListScore sc q (e.1 :: e.2) > (nm, 100).2) := by
      have := bestListScore_le sc q hle (e.1 :: e.2)
      simp
      omega
    simp only [if_neg hns]
    exact ih

/-- The full scan of a vocabulary in which `name` first occurs as the
canonical of its own entry (all earlier entries score strictly below
100) returns `(name, 100)`. -/
theorem normScanLoop_self (sc : String → String → Nat) (name : String)
    (alts : List String) (pre post : List (String × List String))
    (hself : sc name name = 100) (hle : ∀ x y, sc x y ≤ 100)
    (hpre : ∀ e ∈ pre, bestListScore sc name (e.1 :: e.2) < 100) :
    normScanLoop sc (pre ++ (name, alts) :: post) name = (name, 100) := by
  unfold normScanLoop
  rw [List.foldl_append, List.foldl_cons]
  have h1 : (pre.foldl (fun best e =>
      let s := bestListScore sc name (e.1 :: e.2)
      if s > best.2 then (e.1, s) else best) ("", 0)).2 < 100 :=
    normScanFold_lt sc name pre hpre ("", 0) (by omega)
  have hbs : bestListScore sc name (name :: alts) = 100 :=
    le_antisymm (bestListScore_le sc name hle _)
      (by calc (100 : Nat) = sc name name := hself.symm
            _ ≤ _ := le_bestListScore_head sc name name alts)
  simp only [hbs, if_pos (by omega : 100 > (pre.foldl (fun best e =>
      let s := bestListScore sc name (e.1 :: e.2)
      if s > best.2 then (e.1, s) else best) ("", 0)).2)]
  exact normScanFold_stay sc name hle post name

/-- Claim C7 (confirmed): normalizing a name that is exactly a canonical
key of the vocabulary returns that name unchanged with the caller's
review flag untouched, for both the event and the school normalizer.
Hypotheses make the external scorer and vocabulary well-behaved in the
way the spec assumes: a name scores 100 against itself, no score exceeds
100, and no entry before the name's own entry reaches score 100 on it
(canonical keys are unique and the name is not an alias of an earlier
entry). -/
theorem C7_idempotence (esc ssc : String → String → Nat)
    (pre post pre2 post2 : List (String × List String))
    (name school : String) (ealts salts : List String) (rb rb2 : Bool)
    (hn : pyStrip name = name)
    (hes : esc name name = 100)
    (hele : ∀ x y, esc x y ≤ 100)
    (hepre : ∀ e ∈ pre, bestListScore esc name (e.1 :: e.2) < 100)
    (hss : ssc school school = 100)
    (hsle : ∀ x y, ssc x y ≤ 100)
    (hspre : ∀ e ∈ pre2, bestListScore ssc school (e.1 :: e.2) < 100) :
    normalize_event esc (pre ++ (name, ealts) :: post) name rb =
      (name, rb) ∧
    normalize_school ssc (pre2 ++ (school, salts) :: post2) school rb2 =
      (school, rb2) := by
  constructor
  · show (if (normScanLoop esc (pre ++ (name, ealts) :: post)
        (pyStrip name)).2 > 80 then
      ((normScanLoop esc (pre ++ (name, ealts) :: post) (pyStrip name)).1,
        rb)
    else (pyStrip name, true)) = (name, rb)
    rw [hn, normScanLoop_self esc name ealts pre post hes hele hepre]
    norm_num
  · show (if (normScanLoop ssc (pre2 ++ (school, salts) :: post2)
        school).2 > 85 then
      ((normScanLoop ssc (pre2 ++ (school, salts) :: post2) school).1, rb2)
    else (school, true)) = (school, rb2)
    rw [normScanLoop_self ssc school salts pre2 post2 hss hsle hspre]
    norm_num

/-- Claim C7 witness: concrete vocabularies (the name preceded by an
unrelated entry) under the exact-match scorer; normalization returns the
canonical names unchanged with their review flags untouched. -/
theorem C7_idempotence_witness :
    normalize_event eqScore [("A", ["B"]), ("C", []), ("D", [])] "C"
      false = ("C", false) ∧
    normalize_school eqScore [("S", ["X"])] "S" true = ("S", true) :=
  C7_idempotence eqScore eqScore [("A", ["B"])] [("D", [])] [] []
    "C" "S" [] ["X"] false true
    (by decide) (by decide)
    (by intro x y; unfold eqScore; split <;> omega)
    (by intro e he
        simp only [List.mem_singleton] at he
        subst he
        decide)
    (by decide)
    (by intro x y; unfold eqScore; split <;> omega)
    (by intro e he; simp at he)

/-- A one-character substring test is just membership. -/
theorem listIsSub_singleton (c : Char) (l : List Char) :
    listIsSub [c] l = true ↔ c ∈ l := by
  induction l with
  | nil => simp [listIsSub]
  | cons x rest ih =>
    simp [listIsSub, List.isPrefixOf, ih]

/-- `split(',', 1)` of a string containing a comma is the text before the
first comma and the text after it. -/
theorem pySplitComma1Aux_spec (l : List Char) :
    ∀ acc : List Char, ',' ∈ l →
      pySplitComma1Aux acc l =
        [String.mk (acc.reverse ++ l.takeWhile (· != ',')),
         String.mk ((l.dropWhile (· != ',')).drop 1)] := by
  induction l with
  | nil => intro acc h; simp at h
  | cons c rest ih =>
    intro acc h
    by_cases hc : c = ','
    · subst hc
      simp [pySplitComma1Aux, List.takeWhile_cons, List.dropWhile_cons]
    · have hmem : ',' ∈ rest := by
        rcases List.mem_cons.mp h with h1 | h1
        · exact absurd h1.symm hc
        · exact h1
      have hbne : (c != ',') = true := by simp [hc]
      simp only [pySplitComma1Aux, hc, if_false, Bool.false_eq_true]
      rw [ih (c :: acc) hmem]
      simp [List.takeWhile_cons, List.dropWhile_cons, hbne, List.append_assoc]

/-- Claim C8 (confirmed): the name splitter, functionally: with a comma,
last = trimmed text before the first comma and first = trimmed text
after it; otherwise, two or more whitespace tokens give first = first
token and last = remaining tokens joined by single spaces, one token is
the last name with empty first, no tokens give both empty — together
with the three round-trip examples. -/
theorem C8_parse_name_spec :
    (∀ s : String,
      parse_name s =
        if strContains s "," then
          (pyStrip (String.mk (s.data.takeWhile (· != ','))),
           pyStrip (String.mk ((s.data.dropWhile (· != ',')).drop 1)))
        else
          match pySplitWs s with
          | [] => ("", "")
          | [t] => (t, "")
          | t :: rest => (joinSpace rest, t)) ∧
    parse_name "Smith, John" = ("Smith", "John") ∧
    parse_name "John Smith" = ("Smith", "John") ∧
    parse_name "Bolt" = ("Bolt", "") := by
  refine ⟨?_, by decide, by decide, by decide⟩
  intro s
  by_cases h : strContains s "," = true
  · have hmem : ',' ∈ s.data := by
      have := h
      simp only [strContains] at this
      exact (listIsSub_singleton ',' s.data).mp (by simpa using this)
    simp only [parse_name, h, if_true]
    rw [show pySplitComma1 s = pySplitComma1Aux [] s.data from rfl,
      pySplitComma1Aux_spec s.data [] hmem]
    simp
  · simp only [parse_name, h, Bool.false_eq_true, if_false]
    rfl
